import Mathlib

/-!
Shallow embedding of the server-side TLS handshake code in
`library/ssl_srv.c` (PolarSSL 1.2-era), together with theorems checking the
natural-language specification against it.

Byte buffers are modelled as `List Nat` (each element a byte value) or, where
the C code can index past the end of the fetched record, as a total memory
`Nat → Nat`.  Multi-byte big-endian reads are explicit (`* 256 + ...`).
Fallible parsers return `Except SslError _`; a fatal alert sent before
returning is part of the modelled outcome where a claim depends on it.

Compile-time configuration (`POLARSSL_*` defines) is modelled as record
fields where a claim depends on it; the configuration modelled throughout is
the full one (SSLv2 ClientHello support, ECP, all hashes compiled in,
ZLIB/DEFLATE not compiled in, which is the library default).
-/

namespace SslSrv

/-! ## Protocol constants (values as used by `ssl_srv.c` / RFC 5246) -/

def SSL_MAJOR_VERSION_3 : Nat := 3
def SSL_MINOR_VERSION_0 : Nat := 0
def SSL_MINOR_VERSION_3 : Nat := 3
def SSL_MSG_HANDSHAKE : Nat := 22
def SSL_HS_CLIENT_HELLO : Nat := 1
def SSL_EMPTY_RENEGOTIATION_INFO : Nat := 0xFF
def TLS_EXT_SERVERNAME : Nat := 0
def TLS_EXT_SERVERNAME_HOSTNAME : Nat := 0
def TLS_EXT_SIG_ALG : Nat := 13
def TLS_EXT_SUPPORTED_ELLIPTIC_CURVES : Nat := 10
def TLS_EXT_SUPPORTED_POINT_FORMATS : Nat := 11
def TLS_EXT_RENEGOTIATION_INFO : Nat := 0xFF01

def SSL_HASH_MD5 : Nat := 1
def SSL_HASH_SHA1 : Nat := 2
def SSL_HASH_SHA224 : Nat := 3
def SSL_HASH_SHA256 : Nat := 4
def SSL_HASH_SHA384 : Nat := 5
def SSL_HASH_SHA512 : Nat := 6
def SSL_SIG_RSA : Nat := 1

def POLARSSL_ECP_PF_UNCOMPRESSED : Nat := 0
def POLARSSL_ECP_PF_COMPRESSED : Nat := 1

def SSL_ALERT_MSG_HANDSHAKE_FAILURE : Nat := 40
def SSL_ALERT_MSG_PROTOCOL_VERSION : Nat := 70
def SSL_ALERT_MSG_UNRECOGNIZED_NAME : Nat := 112

/-- The `POLARSSL_ERR_SSL_*` status codes returned by the server code. -/
inductive SslError where
  | BadClientHello
  | BadHsProtocolVersion
  | BadClientKeyExchange
  | BadClientKeyExchangeReadPublic
  | BadClientKeyExchangeComputeSecret
  | BadCertificateVerify
  | NoCipherChosen
  | PrivateKeyRequired
  | FeatureUnavailable
  | BadInputData
  deriving DecidableEq, Repr

/-- A fatal alert the engine sends right before returning an error
(`ssl_send_alert_message` / `ssl_send_fatal_handshake_failure`). -/
structure Fatal where
  alert : Option Nat
  err : SslError
  deriving DecidableEq, Repr

/-! ## `ssl_parse_signature_algorithms_ext` (lines 128-195) -/

/-- Which hash modules are compiled in (`POLARSSL_SHA512_C`,
`POLARSSL_SHA256_C`); MD5 and SHA1 are unconditionally present in the
signature-algorithm walk. -/
structure HashCfg where
  sha512_c : Bool
  sha256_c : Bool
  deriving DecidableEq, Repr

/-- Split a byte list into consecutive 2-byte `(hash, sig)` pairs, as the
loop at line 144 consumes them. -/
def sigPairs : List Nat → List (Nat × Nat)
  | a :: b :: rest => (a, b) :: sigPairs rest
  | _ => []

/-- The loop body of `ssl_parse_signature_algorithms_ext` (lines 144-189):
skip pairs whose signature byte is not RSA; for an RSA pair test the hash
byte against SHA512, SHA384, SHA256, SHA224, SHA1, MD5 in that textual
order, set `sig_alg` and break on the first test that fires; otherwise move
to the next pair. -/
def sslSigAlgWalk (cfg : HashCfg) (sig_alg : Nat) : List (Nat × Nat) → Nat
  | [] => sig_alg
  | (h, s) :: rest =>
    if s ≠ SSL_SIG_RSA then sslSigAlgWalk cfg sig_alg rest
    else if cfg.sha512_c ∧ h = SSL_HASH_SHA512 then SSL_HASH_SHA512
    else if cfg.sha512_c ∧ h = SSL_HASH_SHA384 then SSL_HASH_SHA384
    else if cfg.sha256_c ∧ h = SSL_HASH_SHA256 then SSL_HASH_SHA256
    else if cfg.sha256_c ∧ h = SSL_HASH_SHA224 then SSL_HASH_SHA224
    else if h = SSL_HASH_SHA1 then SSL_HASH_SHA1
    else if h = SSL_HASH_MD5 then SSL_HASH_MD5
    else sslSigAlgWalk cfg sig_alg rest

/-- `ssl_parse_signature_algorithms_ext`: 2-byte big-endian list length at
offset 0, must equal `len - 2` and be even, else `BadClientHello`;
then the walk over the pairs.  Returns the resulting `sig_alg`. -/
def ssl_parse_signature_algorithms_ext (cfg : HashCfg) (sig_alg : Nat)
    (buf : List Nat) (len : Nat) : Except SslError Nat :=
  let size := buf.getD 0 0 * 256 + buf.getD 1 0
  if size + 2 ≠ len ∨ size % 2 ≠ 0 then .error .BadClientHello
  else .ok (sslSigAlgWalk cfg sig_alg (sigPairs ((buf.drop 2).take size)))

/-- A hash byte accepted for an RSA pair by the walk (the membership set the
textual cascade tests). -/
def sigHashSupported (cfg : HashCfg) (h : Nat) : Bool :=
  (cfg.sha512_c && (h == SSL_HASH_SHA512 || h == SSL_HASH_SHA384)) ||
  (cfg.sha256_c && (h == SSL_HASH_SHA256 || h == SSL_HASH_SHA224)) ||
  h == SSL_HASH_SHA1 || h == SSL_HASH_MD5

/-- The hash of the first pair, in list order, whose signature byte is RSA
and whose hash byte is supported. -/
def firstRsaSupported (cfg : HashCfg) (pairs : List (Nat × Nat)) : Option Nat :=
  (pairs.find? fun p => p.2 == SSL_SIG_RSA && sigHashSupported cfg p.1).map Prod.fst

/-- The selection rule in the words of the claim: the ordered server
preference, restricted to compiled-in hashes. -/
def claimHashPreference (cfg : HashCfg) : List Nat :=
  (if cfg.sha512_c then [SSL_HASH_SHA512, SSL_HASH_SHA384] else []) ++
  (if cfg.sha256_c then [SSL_HASH_SHA256, SSL_HASH_SHA224] else []) ++
  [SSL_HASH_SHA1, SSL_HASH_MD5]

/-- The selection rule in the words of the claim: the first hash from the
ordered preference that occurs in some pair whose signature byte is RSA. -/
def claimSigAlg (cfg : HashCfg) (sig_alg : Nat) (pairs : List (Nat × Nat)) : Nat :=
  match (claimHashPreference cfg).find?
      (fun h => pairs.any fun p => p.2 == SSL_SIG_RSA && p.1 == h) with
  | some h => h
  | none => sig_alg

/-! ## `ssl_parse_supported_point_formats` (lines 259-288) -/

/-- The scan loop of `ssl_parse_supported_point_formats`: pointer index `i`
advances, `list_size` counts down, the first byte equal to
`POLARSSL_ECP_PF_UNCOMPRESSED` or `POLARSSL_ECP_PF_COMPRESSED` is recorded. -/
def pointFormatScan (fmt : Nat) (buf : List Nat) : Nat → Nat → Nat
  | _, 0 => fmt
  | i, k + 1 =>
    if buf.getD i 0 = POLARSSL_ECP_PF_UNCOMPRESSED ∨
       buf.getD i 0 = POLARSSL_ECP_PF_COMPRESSED then buf.getD i 0
    else pointFormatScan fmt buf (i + 1) k

/-- `ssl_parse_supported_point_formats`, faithful to the source: 1-byte list
length at offset 0, must equal `len - 1`; then the scan starts at `buf + 2`
(the source's pointer arithmetic, one past the first list byte), examining
`list_size` bytes.  `buf` is the memory from the start of the extension body
onwards, so indices at or beyond `len` read adjacent memory exactly as the C
code does. -/
def ssl_parse_supported_point_formats (ec_point_format : Nat)
    (buf : List Nat) (len : Nat) : Except SslError Nat :=
  let list_size := buf.getD 0 0
  if list_size + 1 ≠ len then .error .BadClientHello
  else .ok (pointFormatScan ec_point_format buf 2 list_size)

/-- The scan in the words of the claim: start at offset 1, record the first
byte equal to uncompressed or an ansiX962 compressed format (values 0..2). -/
def claimPointScan (fmt : Nat) (buf : List Nat) : Nat → Nat → Nat
  | _, 0 => fmt
  | i, k + 1 =>
    if buf.getD i 0 ≤ 2 then buf.getD i 0
    else claimPointScan fmt buf (i + 1) k

/-- The parser the claim (and section 4.B of the specification) describes:
format bytes start at offset 1. -/
def claimPointFormats (ec_point_format : Nat)
    (buf : List Nat) (len : Nat) : Except SslError Nat :=
  let list_size := buf.getD 0 0
  if list_size + 1 ≠ len then .error .BadClientHello
  else .ok (claimPointScan ec_point_format buf 1 list_size)

/-! ## Renegotiation-related state enums (`ssl.h` values 0/1, 0/1, 0/1/2) -/

/-- `ssl->renegotiation`: `SSL_INITIAL_HANDSHAKE` / `SSL_RENEGOTIATION`. -/
inductive Reneg where
  | initial
  | renegotiation
  deriving DecidableEq, Repr

/-- `ssl->secure_renegotiation`: `SSL_LEGACY_RENEGOTIATION` /
`SSL_SECURE_RENEGOTIATION`. -/
inductive SecReneg where
  | legacy
  | secure
  deriving DecidableEq, Repr

/-- `ssl->allow_legacy_renegotiation`: `SSL_LEGACY_NO_RENEGOTIATION` /
`SSL_LEGACY_ALLOW_RENEGOTIATION` / `SSL_LEGACY_BREAK_HANDSHAKE`. -/
inductive LegacyPolicy where
  | noRenegotiation
  | allowLegacy
  | breakHandshake
  deriving DecidableEq, Repr

/-! ## `ssl_parse_encrypted_pms_secret` (lines 1565-1630)

The RSA decryption collaborator is abstracted as `dec : Option (List Nat)`:
`some pms` when `rsa_decrypt` returns 0 having produced the bytes `pms`
(so `pmslen = pms.length`), `none` when it returns nonzero.  `rand` is the
48-byte RNG output used by the countermeasure path (the RNG is modelled as
succeeding).  A configured private key of byte length `n` is assumed
present (the `rsa_key == NULL` branch returns `PrivateKeyRequired` and is
outside every claim). -/

/-- `ssl_parse_encrypted_pms_secret`: framing checks, RSA decrypt, and the
Bleichenbacher countermeasure.  Returns `(premaster, pmslen)`. -/
def ssl_parse_encrypted_pms_secret (minor_ver max_major_ver max_minor_ver : Nat)
    (n in_hslen : Nat) (msg : List Nat)
    (dec : Option (List Nat)) (rand : List Nat) :
    Except SslError (List Nat × Nat) :=
  let i := if minor_ver ≠ SSL_MINOR_VERSION_0 then 6 else 4
  if minor_ver ≠ SSL_MINOR_VERSION_0 ∧
      (msg.getD 4 0 ≠ n / 256 % 256 ∨ msg.getD 5 0 ≠ n % 256) then
    .error .BadClientKeyExchange
  else if in_hslen ≠ i + n then
    .error .BadClientKeyExchange
  else
    match dec with
    | some pms =>
      if pms.length = 48 ∧ pms.getD 0 0 = max_major_ver ∧
          pms.getD 1 0 = max_minor_ver then
        .ok (pms, 48)
      else
        .ok (rand, 48)
    | none => .ok (rand, 48)

/-! ## ServerHello renegotiation_info extension block (lines 1031-1058) -/

/-- The bytes `ssl_write_server_hello` appends after the compression byte
when `secure_renegotiation = SECURE`, one `let` per write of the source:
2-byte extensions-block length, 2-byte extension type, 2-byte extension
data length, 1-byte inner length, then the two `memcpy`s of
`verify_data_len` bytes each. -/
def ssl_write_server_hello_renego_ext (verify_data_len : Nat)
    (peer_verify_data own_verify_data : List Nat) : List Nat :=
  let ext_len := 5 + verify_data_len * 2
  let out : List Nat := [ext_len / 256 % 256, ext_len % 256]
  let out := out ++ [TLS_EXT_RENEGOTIATION_INFO / 256 % 256,
                     TLS_EXT_RENEGOTIATION_INFO % 256]
  let out := out ++ [0x00, (verify_data_len * 2 + 1) % 256,
                     verify_data_len * 2 % 256]
  let out := out ++ peer_verify_data.take verify_data_len
  let out := out ++ own_verify_data.take verify_data_len
  out

/-- The same block in the words of the claim: the payload is
`own_verify_data` followed by `peer_verify_data`. -/
def claimRenegoExtBlock (verify_data_len : Nat)
    (peer_verify_data own_verify_data : List Nat) : List Nat :=
  let ext_len := 5 + verify_data_len * 2
  [ext_len / 256 % 256, ext_len % 256,
   TLS_EXT_RENEGOTIATION_INFO / 256 % 256, TLS_EXT_RENEGOTIATION_INFO % 256,
   0x00, (verify_data_len * 2 + 1) % 256, verify_data_len * 2 % 256] ++
  own_verify_data.take verify_data_len ++
  peer_verify_data.take verify_data_len

/-! ## Renegotiation policy block (lines 843-877) -/

/-- The `handshake_failure` flag computed by the else-if chain at
lines 843-869. -/
def renegoPolicyFatal (reneg : Reneg) (sec : SecReneg)
    (policy : LegacyPolicy) (seen : Bool) : Bool :=
  if sec = .legacy ∧ policy = .breakHandshake then true
  else if reneg = .renegotiation ∧ sec = .secure ∧ seen = false then true
  else if reneg = .renegotiation ∧ sec = .legacy ∧
      policy = .noRenegotiation then true
  else if reneg = .renegotiation ∧ sec = .legacy ∧ seen = true then true
  else false

/-- Lines 871-877: when the flag is set, send a fatal handshake_failure
alert and return `BadClientHello`; otherwise continue (`none`). -/
def renegoPolicyStage (reneg : Reneg) (sec : SecReneg)
    (policy : LegacyPolicy) (seen : Bool) : Option Fatal :=
  if renegoPolicyFatal reneg sec policy seen then
    some ⟨some SSL_ALERT_MSG_HANDSHAKE_FAILURE, .BadClientHello⟩
  else none

/-! ## Version negotiation (lines 632-649, and identically lines 350-366 of
`ssl_parse_client_hello_v2`) -/

/-- `minor_ver = (peer_max <= max_minor_ver) ? peer_max : max_minor_ver`;
below `min_minor_ver` a fatal ProtocolVersion alert is sent and
`BadHsProtocolVersion` returned. -/
def ssl_negotiate_version (client_max server_max server_min : Nat) :
    Except Fatal Nat :=
  let minor := if client_max ≤ server_max then client_max else server_max
  if minor < server_min then
    .error ⟨some SSL_ALERT_MSG_PROTOCOL_VERSION, .BadHsProtocolVersion⟩
  else .ok minor

/-! ## Ciphersuite selection (lines 883-927) -/

/-- The fields of `ssl_ciphersuite_t` the selection loop consults. -/
structure SuiteInfo where
  min_minor_ver : Nat
  max_minor_ver : Nat
  flags_ec : Bool
  deriving DecidableEq, Repr

/-- Outcome of the inner scan over the client's advertised list. -/
inductive SuiteScan where
  | found
  | infoMissing
  | noMatch
  deriving DecidableEq, Repr

/-- The inner loop (lines 886-911): scan the client's 2-byte entries for the
bytes of server-list entry `id`; on a byte match, look the suite up
(`ssl_ciphersuite_from_id`), skip it when the negotiated minor version is
outside its range or when it is EC-based and no curve was selected. -/
def suiteInner (db : Nat → Option SuiteInfo) (minor ec_curve id : Nat) :
    List (Nat × Nat) → SuiteScan
  | [] => .noMatch
  | (b0, b1) :: rest =>
    if b0 = id / 256 % 256 ∧ b1 = id % 256 then
      match db id with
      | none => .infoMissing
      | some info =>
        if minor < info.min_minor_ver ∨ info.max_minor_ver < minor then
          suiteInner db minor ec_curve id rest
        else if info.flags_ec ∧ ec_curve = 0 then
          suiteInner db minor ec_curve id rest
        else .found
    else suiteInner db minor ec_curve id rest

/-- The outer loop over the server's ordered preference list (the 0-sentinel
array `ssl->ciphersuite_list[minor_ver]`, modelled as the list of its
entries): the first `found` wins; a missing database entry is
`BadInputData`; exhaustion sends a fatal handshake_failure alert and
returns `NoCipherChosen` (lines 914-919). -/
def suiteSelect (db : Nat → Option SuiteInfo) (minor ec_curve : Nat)
    (client : List (Nat × Nat)) : List Nat → Except Fatal Nat
  | [] => .error ⟨some SSL_ALERT_MSG_HANDSHAKE_FAILURE, .NoCipherChosen⟩
  | id :: rest =>
    match suiteInner db minor ec_curve id client with
    | .found => .ok id
    | .infoMissing => .error ⟨none, .BadInputData⟩
    | .noMatch => suiteSelect db minor ec_curve client rest

/-- Acceptability of a server-list entry in the words of the claim: it
appears in the client's advertised list, its minor-version range contains
the negotiated version, and it is not EC-based when no curve was selected. -/
def suiteAcceptable (db : Nat → Option SuiteInfo) (minor ec_curve : Nat)
    (client : List (Nat × Nat)) (id : Nat) : Bool :=
  client.any (fun p => p.1 == id / 256 % 256 && p.2 == id % 256) &&
  match db id with
  | none => false
  | some info =>
    decide (info.min_minor_ver ≤ minor) && decide (minor ≤ info.max_minor_ver) &&
    !(info.flags_ec && ec_curve == 0)

/-! ## PSK ClientKeyExchange (lines 1635-1677 and 1757-1779) -/

/-- `ssl_parse_client_psk_identity`: `body` is the message from offset 4 on
(`p = in_msg + 4`, `end = in_msg + in_msglen`).  The configured PSK and its
identity are the lists `psk` and `psk_identity` (the `NULL`/zero-length
configuration guard is the emptiness test).  Returns the bytes after the
identity. -/
def ssl_parse_client_psk_identity (psk psk_identity body : List Nat) :
    Except SslError (List Nat) :=
  if psk = [] ∨ psk_identity = [] then .error .PrivateKeyRequired
  else if body.length < 2 then .error .BadClientKeyExchange
  else
    let n := body.getD 0 0 * 256 + body.getD 1 0
    if n < 1 ∨ n > 65535 ∨ 2 + n > body.length then .error .BadClientKeyExchange
    else if n ≠ psk_identity.length ∨ (body.drop 2).take n ≠ psk_identity then
      .error .BadClientKeyExchange
    else .ok (body.drop (2 + n))

/-- The premaster layout built by the PSK branch of
`ssl_parse_client_key_exchange` (lines 1766-1778): two length bytes, then
`psk_len` bytes skipped over (left holding the prior buffer contents
`prev`), two length bytes again, then the PSK. -/
def psk_premaster (psk prev : List Nat) : List Nat × Nat :=
  let L := psk.length
  ([L / 256 % 256, L % 256] ++ (prev.drop 2).take L ++
   [L / 256 % 256, L % 256] ++ psk,
   4 + 2 * L)

/-- The PSK branch of `ssl_parse_client_key_exchange`: parse the identity,
then build the premaster. -/
def ssl_parse_client_key_exchange_psk (psk psk_identity body prev : List Nat) :
    Except SslError (List Nat × Nat) :=
  match ssl_parse_client_psk_identity psk psk_identity body with
  | .error e => .error e
  | .ok _ => .ok (psk_premaster psk prev)

/-! ## `ssl_parse_servername_ext` (lines 40-88)

The SNI callback `f_sni` returns `true` when the C callback returns 0. -/

/-- The server-name list walk: 1-byte entry type, 2-byte entry length; on
the first `host_name` entry invoke the callback and stop; rejection sends a
fatal UnrecognizedName alert.  The first argument is recursion fuel: every
iteration consumes at least 3 of `size` while using one unit of fuel, so
with the fuel `size` the caller passes, the fuel-0 arm is only ever reached
with `size = 0` and mirrors normal loop exit. -/
def servernameWalkF (f_sni : List Nat → Bool) (buf : List Nat) :
    Nat → Nat → Nat → Except Fatal Unit
  | 0, _, _ => .ok ()
  | fuel + 1, i, size =>
    if size = 0 then .ok ()
    else
      let hostname_len := buf.getD (i + 1) 0 * 256 + buf.getD (i + 2) 0
      if hostname_len + 3 > size then .error ⟨none, .BadClientHello⟩
      else if buf.getD i 0 = TLS_EXT_SERVERNAME_HOSTNAME then
        if f_sni ((List.range hostname_len).map fun j => buf.getD (i + 3 + j) 0) then
          .ok ()
        else .error ⟨some SSL_ALERT_MSG_UNRECOGNIZED_NAME, .BadClientHello⟩
      else servernameWalkF f_sni buf fuel (i + hostname_len + 3)
            (size - (hostname_len + 3))

/-- `ssl_parse_servername_ext`: 2-byte list length must equal `len - 2`. -/
def ssl_parse_servername_ext (f_sni : List Nat → Bool)
    (buf : List Nat) (len : Nat) : Except Fatal Unit :=
  let sz := buf.getD 0 0 * 256 + buf.getD 1 0
  if sz + 2 ≠ len then .error ⟨none, .BadClientHello⟩
  else servernameWalkF f_sni buf sz 2 sz

/-! ## `ssl_parse_renegotiation_info` (lines 90-126) -/

/-- Initial handshake: body must be the single byte 0, which sets
`secure_renegotiation = SECURE`.  Renegotiation: body must be
`verify_data_len` followed by the peer's verify data; mismatch is a fatal
handshake_failure; on success the flag is left unchanged. -/
def ssl_parse_renegotiation_info (reneg : Reneg) (verify_data_len : Nat)
    (peer_verify_data : List Nat) (sec : SecReneg)
    (buf : List Nat) (len : Nat) : Except Fatal SecReneg :=
  match reneg with
  | .initial =>
    if len ≠ 1 ∨ buf.getD 0 0 ≠ 0 then
      .error ⟨some SSL_ALERT_MSG_HANDSHAKE_FAILURE, .BadClientHello⟩
    else .ok .secure
  | .renegotiation =>
    if len ≠ 1 + verify_data_len ∨ buf.getD 0 0 ≠ verify_data_len ∨
        (buf.drop 1).take verify_data_len ≠ peer_verify_data.take verify_data_len then
      .error ⟨some SSL_ALERT_MSG_HANDSHAKE_FAILURE, .BadClientHello⟩
    else .ok sec

/-! ## `ssl_parse_supported_elliptic_curves` (lines 198-257)

The `POLARSSL_ECP_DP_*` values (from `ecp.h`, outside this file) are the
TLS NamedCurve registry ids the wire bytes are compared against. -/

def POLARSSL_ECP_DP_SECP192R1 : Nat := 19
def POLARSSL_ECP_DP_SECP224R1 : Nat := 21
def POLARSSL_ECP_DP_SECP256R1 : Nat := 23
def POLARSSL_ECP_DP_SECP384R1 : Nat := 24
def POLARSSL_ECP_DP_SECP521R1 : Nat := 25

/-- The curve-list scan: the first pair `(0x00, id)` with `id` a supported
curve wins (all five `POLARSSL_ECP_DP_*_ENABLED` flags modelled on). -/
def curveScan (ec_curve : Nat) : List (Nat × Nat) → Nat
  | [] => ec_curve
  | (b0, b1) :: rest =>
    if b0 = 0 ∧ (b1 = POLARSSL_ECP_DP_SECP192R1 ∨ b1 = POLARSSL_ECP_DP_SECP224R1 ∨
        b1 = POLARSSL_ECP_DP_SECP256R1 ∨ b1 = POLARSSL_ECP_DP_SECP384R1 ∨
        b1 = POLARSSL_ECP_DP_SECP521R1) then b1
    else curveScan ec_curve rest

/-- `ssl_parse_supported_elliptic_curves`: 2-byte list length must equal
`len - 2` and be even, then the scan. -/
def ssl_parse_supported_elliptic_curves (ec_curve : Nat)
    (buf : List Nat) (len : Nat) : Except SslError Nat :=
  let size := buf.getD 0 0 * 256 + buf.getD 1 0
  if size + 2 ≠ len ∨ size % 2 ≠ 0 then .error .BadClientHello
  else .ok (curveScan ec_curve (sigPairs ((buf.drop 2).take size)))

/-! ## `ssl_parse_client_hello` (lines 522-932) -/

/-- The `ssl_context` fields `ssl_parse_client_hello` and its helpers
consult: configuration (version bounds, per-minor-version ordered
ciphersuite preference, suite database, compiled-in hashes, SNI callback,
legacy-renegotiation policy) and connection state (renegotiation phase,
secure-renegotiation flag, verify data, handshake scratch defaults). -/
structure SslCfg where
  max_minor_ver : Nat
  min_minor_ver : Nat
  ciphersuite_list : Nat → List Nat
  suite_db : Nat → Option SuiteInfo
  hash_cfg : HashCfg
  f_sni : Option (List Nat → Bool)
  allow_legacy_renegotiation : LegacyPolicy
  renegotiation : Reneg
  secure_renegotiation : SecReneg
  verify_data_len : Nat
  peer_verify_data : List Nat
  sig_alg : Nat
  ec_curve : Nat
  ec_point_format : Nat

/-- The handshake-scratch fields the extension walk can update, plus the
local `renegotiation_info_seen` flag. -/
structure ExtState where
  sec : SecReneg
  seen : Bool
  sig_alg : Nat
  ec_curve : Nat
  ec_point_format : Nat
  deriving DecidableEq, Repr

/-- The extension walk (lines 762-838): 4-byte extension header, size check
`ext_size + 4 <= ext_len`, dispatch on the extension id, then trailing
slack of 1..3 bytes is a protocol error.  `signature_algorithms` is skipped
during renegotiation; `server_name` is skipped when no callback is
installed; unknown extensions are skipped. -/
def extWalkF (cfg : SslCfg) (mem : Nat → Nat) :
    Nat → Nat → Nat → ExtState → Except Fatal ExtState
  | 0, _, _, st => .ok st
  | fuel + 1, off, ext_len, st =>
    if ext_len = 0 then .ok st
    else
    let ext_id := mem off * 256 + mem (off + 1)
    let ext_size := mem (off + 2) * 256 + mem (off + 3)
    if ext_size + 4 > ext_len then .error ⟨none, .BadClientHello⟩
    else
      let body := (List.range ext_size).map fun j => mem (off + 4 + j)
      let step : Except Fatal ExtState :=
        if ext_id = TLS_EXT_SERVERNAME then
          match cfg.f_sni with
          | none => .ok st
          | some f =>
            match ssl_parse_servername_ext f body ext_size with
            | .error e => .error e
            | .ok _ => .ok st
        else if ext_id = TLS_EXT_RENEGOTIATION_INFO then
          match ssl_parse_renegotiation_info cfg.renegotiation cfg.verify_data_len
              cfg.peer_verify_data st.sec body ext_size with
          | .error e => .error e
          | .ok s2 => .ok { st with sec := s2, seen := true }
        else if ext_id = TLS_EXT_SIG_ALG then
          if cfg.renegotiation = .renegotiation then .ok st
          else
            match ssl_parse_signature_algorithms_ext cfg.hash_cfg st.sig_alg
                body ext_size with
            | .error e => .error ⟨none, e⟩
            | .ok a => .ok { st with sig_alg := a }
        else if ext_id = TLS_EXT_SUPPORTED_ELLIPTIC_CURVES then
          match ssl_parse_supported_elliptic_curves st.ec_curve body ext_size with
          | .error e => .error ⟨none, e⟩
          | .ok c => .ok { st with ec_curve := c }
        else if ext_id = TLS_EXT_SUPPORTED_POINT_FORMATS then
          match ssl_parse_supported_point_formats st.ec_point_format body ext_size with
          | .error e => .error ⟨none, e⟩
          | .ok f => .ok { st with ec_point_format := f }
        else .ok st
      match step with
      | .error e => .error e
      | .ok st2 =>
        let rem := ext_len - (4 + ext_size)
        if 0 < rem ∧ rem < 4 then .error ⟨none, .BadClientHello⟩
        else extWalkF cfg mem fuel (off + 4 + ext_size) rem st2

/-- The extension walk entered with fuel `ext_len`: every iteration consumes
at least 4 of `ext_len` while using one unit of fuel, so the fuel-0 arm is
only ever reached with `ext_len = 0` and mirrors normal loop exit. -/
def extWalk (cfg : SslCfg) (mem : Nat → Nat) (off ext_len : Nat)
    (st : ExtState) : Except Fatal ExtState :=
  extWalkF cfg mem ext_len off ext_len st

/-- The values `ssl_parse_client_hello` extracts from the handshake body
before the list scans. -/
structure CHLens where
  minor : Nat
  max_major_ver : Nat
  max_minor_ver : Nat
  randbytes : List Nat
  sess_len : Nat
  session_id : List Nat
  ciph_len : Nat
  comp_len : Nat
  ext_present : Bool
  ext_len : Nat
  deriving DecidableEq, Repr

/-- Lines 625-717 of `ssl_parse_client_hello`, over the fetched record
`mem` (total memory: indices at or beyond the record length `n` read
adjacent memory, exactly as the C pointer arithmetic does) and with the
negotiated-version step shared with the SSLv2 path
(`ssl_negotiate_version`).  The second component is the exact sequence of
`mem` indices dereferenced, in order, while extracting these fields
(handshake type and lengths, version, random, session id, ciphersuite-list
length, compression-list length, extension-block length). -/
def chParseCore (mem : Nat → Nat) (n max_minor min_minor : Nat) :
    Except Fatal CHLens × List Nat :=
  let acc : List Nat := [0, 4]
  if mem 0 ≠ SSL_HS_CLIENT_HELLO ∨ mem 4 ≠ SSL_MAJOR_VERSION_3 then
    (.error ⟨none, .BadClientHello⟩, acc)
  else
    let acc := acc ++ [5]
    match ssl_negotiate_version (mem 5) max_minor min_minor with
    | .error e => (.error e, acc)
    | .ok minor =>
      let acc := acc ++ (List.range 32).map (6 + ·)
      let randbytes := (List.range 32).map fun j => mem (6 + j)
      let acc := acc ++ [1, 2, 3]
      if mem 1 ≠ 0 ∨ n ≠ 4 + (mem 2 * 256 + mem 3) then
        (.error ⟨none, .BadClientHello⟩, acc)
      else
        let acc := acc ++ [38]
        let sess_len := mem 38
        if sess_len > 32 then (.error ⟨none, .BadClientHello⟩, acc)
        else
          let acc := acc ++ (List.range sess_len).map (39 + ·)
          let session_id := (List.range sess_len).map fun j => mem (39 + j)
          let acc := acc ++ [39 + sess_len, 40 + sess_len]
          let ciph_len := mem (39 + sess_len) * 256 + mem (40 + sess_len)
          if ciph_len < 2 ∨ ciph_len > 256 ∨ ciph_len % 2 ≠ 0 then
            (.error ⟨none, .BadClientHello⟩, acc)
          else
            let acc := acc ++ [41 + sess_len + ciph_len]
            let comp_len := mem (41 + sess_len + ciph_len)
            if comp_len < 1 ∨ comp_len > 16 then
              (.error ⟨none, .BadClientHello⟩, acc)
            else
              if n > 42 + sess_len + ciph_len + comp_len then
                let acc := acc ++ [42 + sess_len + ciph_len + comp_len,
                                   43 + sess_len + ciph_len + comp_len]
                let ext_len := mem (42 + sess_len + ciph_len + comp_len) * 256 +
                               mem (43 + sess_len + ciph_len + comp_len)
                if (ext_len > 0 ∧ ext_len < 4) ∨
                    n ≠ 44 + sess_len + ciph_len + comp_len + ext_len then
                  (.error ⟨none, .BadClientHello⟩, acc)
                else
                  (.ok ⟨minor, mem 4, mem 5, randbytes, sess_len, session_id,
                        ciph_len, comp_len, true, ext_len⟩, acc)
              else
                (.ok ⟨minor, mem 4, mem 5, randbytes, sess_len, session_id,
                      ciph_len, comp_len, false, 0⟩, acc)

/-- The SCSV scan (lines 743-760): walk the `ciph_len / 2` 2-byte entries;
on `(0x00, 0xFF)` during renegotiation fail fatally, during the initial
handshake set `secure_renegotiation = SECURE` and break. -/
def scsvScan (mem : Nat → Nat) (reneg : Reneg) :
    Nat → Nat → SecReneg → Except Fatal SecReneg
  | _, 0, s => .ok s
  | base, k + 1, s =>
    if mem base = 0 ∧ mem (base + 1) = SSL_EMPTY_RENEGOTIATION_INFO then
      if reneg = .renegotiation then
        .error ⟨some SSL_ALERT_MSG_HANDSHAKE_FAILURE, .BadClientHello⟩
      else .ok .secure
    else scsvScan mem reneg (base + 2) k s

/-- The result of an accepted ClientHello: extracted fields, chosen
compression (`NULL`; ZLIB is not compiled in), updated renegotiation and
handshake-scratch state, and the selected ciphersuite. -/
structure CHResult where
  lens : CHLens
  compression : Nat
  secure_renegotiation : SecReneg
  reneg_info_seen : Bool
  sig_alg : Nat
  ec_curve : Nat
  ec_point_format : Nat
  ciphersuite : Nat
  deriving DecidableEq, Repr

/-- `ssl_parse_client_hello`, SSLv3+ branch (an `in_hdr` first byte with the
high bit set dispatches to the SSLv2 parser before these checks): record
header checks, the field extraction of `chParseCore`, the SCSV scan, the
extension walk, the renegotiation policy block, and ciphersuite selection.
The second component is `chParseCore`'s dereference trace. -/
def ssl_parse_client_hello (cfg : SslCfg) (hdr : List Nat) (mem : Nat → Nat) :
    Except Fatal CHResult × List Nat :=
  if hdr.getD 0 0 ≠ SSL_MSG_HANDSHAKE ∨ hdr.getD 1 0 ≠ SSL_MAJOR_VERSION_3 then
    (.error ⟨none, .BadClientHello⟩, [])
  else
    let n := hdr.getD 3 0 * 256 + hdr.getD 4 0
    if n < 45 ∨ n > 512 then (.error ⟨none, .BadClientHello⟩, [])
    else
      match chParseCore mem n cfg.max_minor_ver cfg.min_minor_ver with
      | (.error e, acc) => (.error e, acc)
      | (.ok lens, acc) =>
        match scsvScan mem cfg.renegotiation (41 + lens.sess_len)
            (lens.ciph_len / 2) cfg.secure_renegotiation with
        | .error e => (.error e, acc)
        | .ok sec1 =>
          let st0 : ExtState :=
            ⟨sec1, false, cfg.sig_alg, cfg.ec_curve, cfg.ec_point_format⟩
          match extWalk cfg mem (44 + lens.sess_len + lens.ciph_len + lens.comp_len)
              lens.ext_len st0 with
          | .error e => (.error e, acc)
          | .ok st =>
            match renegoPolicyStage cfg.renegotiation st.sec
                cfg.allow_legacy_renegotiation st.seen with
            | some e => (.error e, acc)
            | none =>
              let clientPairs := (List.range (lens.ciph_len / 2)).map fun k =>
                (mem (41 + lens.sess_len + 2 * k), mem (41 + lens.sess_len + 2 * k + 1))
              match suiteSelect cfg.suite_db lens.minor st.ec_curve clientPairs
                  (cfg.ciphersuite_list lens.minor) with
              | .error e => (.error e, acc)
              | .ok id =>
                (.ok ⟨lens, 0, st.sec, st.seen, st.sig_alg, st.ec_curve,
                      st.ec_point_format, id⟩, acc)

/-! ## Theorems -/

/-- C5: after the ClientHello extension walk, the renegotiation policy block
sends a fatal handshake_failure alert and returns `BadClientHello` exactly
in the four listed cases — (1) legacy peer with BREAK_HANDSHAKE policy,
(2) renegotiation, secure flag, no renegotiation_info seen,
(3) renegotiation, legacy peer, NO_RENEGOTIATION policy,
(4) renegotiation, legacy peer, renegotiation_info seen — and in no other
combination. -/
theorem renego_policy_table (reneg : Reneg) (sec : SecReneg)
    (policy : LegacyPolicy) (seen : Bool) :
    renegoPolicyStage reneg sec policy seen =
      (if (sec = .legacy ∧ policy = .breakHandshake) ∨
          (reneg = .renegotiation ∧ sec = .secure ∧ seen = false) ∨
          (reneg = .renegotiation ∧ sec = .legacy ∧ policy = .noRenegotiation) ∨
          (reneg = .renegotiation ∧ sec = .legacy ∧ seen = true) then
        some ⟨some SSL_ALERT_MSG_HANDSHAKE_FAILURE, SslError.BadClientHello⟩
      else none) := by
  cases reneg <;> cases sec <;> cases policy <;> cases seen <;> decide

/-- C6: for both ClientHello shapes the negotiated minor version is
`min(client_max, server_max)` (so any accepted value `m` satisfies
`server_min ≤ m ≤ min(client_max, server_max)`), and when that minimum is
below the configured minimum the parser sends a fatal ProtocolVersion alert
and returns `BadHsProtocolVersion`. -/
theorem version_negotiation_minmax (cmax smax smin : Nat) :
    (∀ m, ssl_negotiate_version cmax smax smin = .ok m →
        m = min cmax smax ∧ smin ≤ m ∧ m ≤ min cmax smax) ∧
    (min cmax smax < smin →
        ssl_negotiate_version cmax smax smin =
          .error ⟨some SSL_ALERT_MSG_PROTOCOL_VERSION, .BadHsProtocolVersion⟩) := by
  have hmin : (if cmax ≤ smax then cmax else smax) = min cmax smax :=
    (min_def cmax smax).symm
  constructor
  · intro m hm
    simp only [ssl_negotiate_version] at hm
    rw [hmin] at hm
    split at hm
    · exact absurd hm (by simp)
    · rename_i hge
      obtain rfl : min cmax smax = m := by injection hm
      exact ⟨rfl, Nat.le_of_not_lt hge, le_rfl⟩
  · intro hlt
    simp only [ssl_negotiate_version]
    rw [hmin, if_pos hlt]

/-- Witness for C6 at client max 3, server max 3, server min 1. -/
theorem version_negotiation_minmax_witness :
    3 = min 3 3 ∧ 1 ≤ 3 ∧ 3 ≤ min 3 3 :=
  (version_negotiation_minmax 3 3 1).1 3 rfl

/-- C8: on the extension body `[0x01, 0x00]` (`len = 2`, one listed format
byte `0x00` = uncompressed at offset 1, adjacent memory byte `0x07`), the
source parser scans from offset 2, sees only the adjacent byte and leaves
`ec_point_format` at its prior value 1, while the parser the claim
describes records the listed byte 0. -/
theorem point_formats_offset_bug :
    ssl_parse_supported_point_formats 1 [1, 0, 7] 2 = .ok 1 ∧
    claimPointFormats 1 [1, 0, 7] 2 = .ok 0 ∧ (1 : Nat) ≠ 0 :=
  ⟨rfl, rfl, by decide⟩

/-- C1, counterexample: a TLS 1.0 RSA ClientKeyExchange whose 2-byte length
prefix `(0x00, 0x00)` does not match the 128-byte RSA key length is
malformed ("bad length"), yet the parser returns the error
`BadClientKeyExchange` instead of succeeding with a random premaster. -/
theorem rsa_cke_bad_length_rejected :
    ssl_parse_encrypted_pms_secret 1 3 1 128 134 [1, 0, 0, 130, 0, 0] none
      (List.replicate 48 9) = .error .BadClientKeyExchange := rfl

/-- C1, amended: once the framing checks pass (correct 2-byte length prefix
for TLS 1.0+ and handshake length equal to header-plus-ciphertext), any
decryption failure, wrong decrypted length, or wrong premaster version
bytes does not abort: the premaster becomes the 48 RNG bytes, `pmslen = 48`
and the parser returns success. -/
theorem rsa_cke_bleichenbacher (minor maxma maxmi n hslen : Nat)
    (msg : List Nat) (dec : Option (List Nat)) (rand : List Nat)
    (hpre : minor ≠ 0 → msg.getD 4 0 = n / 256 % 256 ∧ msg.getD 5 0 = n % 256)
    (hlen : hslen = (if minor ≠ 0 then 6 else 4) + n)
    (hbad : ∀ pms, dec = some pms →
        ¬(pms.length = 48 ∧ pms.getD 0 0 = maxma ∧ pms.getD 1 0 = maxmi)) :
    ssl_parse_encrypted_pms_secret minor maxma maxmi n hslen msg dec rand =
      .ok (rand, 48) := by
  simp only [ssl_parse_encrypted_pms_secret, SSL_MINOR_VERSION_0]
  rw [if_neg (by push_neg; exact hpre), if_neg (by push_neg; exact hlen)]
  cases dec with
  | none => rfl
  | some pms => exact if_neg (hbad pms rfl)

/-- Witness for C1 (amended) at a TLS 1.0 message with a correct length
prefix for a 2-byte key and a failing decryption. -/
theorem rsa_cke_bleichenbacher_witness :
    ssl_parse_encrypted_pms_secret 1 3 1 2 8 [0, 0, 0, 0, 0, 2] none [5] =
      .ok ([5], 48) :=
  rsa_cke_bleichenbacher 1 3 1 2 8 [0, 0, 0, 0, 0, 2] none [5]
    (fun _ => ⟨rfl, rfl⟩) (by norm_num)
    (fun pms h => Option.noConfusion h)

/-- C3, counterexample: with `verify_data_len = 2`,
`peer_verify_data = [1, 2]` and `own_verify_data = [3, 4]`, the block the
source writes is not the block the claim describes (the source copies the
peer's verify data first, the claim puts the server's own data first). -/
theorem server_hello_renego_payload_order :
    ssl_write_server_hello_renego_ext 2 [1, 2] [3, 4] ≠
      claimRenegoExtBlock 2 [1, 2] [3, 4] := by decide

/-- C3, amended: with `secure_renegotiation = SECURE` the ServerHello gains
exactly one extensions block holding one renegotiation_info extension whose
payload is `peer_verify_data` followed by `own_verify_data`, and the
extensions-block length written is `5 + 2 * verify_data_len`. -/
theorem server_hello_renego_block (L : Nat) (peer own : List Nat)
    (hp : peer.length = L) (ho : own.length = L) :
    ssl_write_server_hello_renego_ext L peer own =
      [(5 + L * 2) / 256 % 256, (5 + L * 2) % 256, 255, 1, 0,
       (L * 2 + 1) % 256, L * 2 % 256] ++ peer ++ own ∧
    (ssl_write_server_hello_renego_ext L peer own).length = 2 + (5 + L * 2) := by
  have hpeer : peer.take L = peer := hp ▸ List.take_length peer
  have hown : own.take L = own := ho ▸ List.take_length own
  constructor
  · simp [ssl_write_server_hello_renego_ext, TLS_EXT_RENEGOTIATION_INFO,
      hpeer, hown]
  · simp [ssl_write_server_hello_renego_ext, hpeer, hown, hp, ho]
    omega

/-- Witness for C3 (amended) at `verify_data_len = 2`. -/
theorem server_hello_renego_block_witness :
    ssl_write_server_hello_renego_ext 2 [1, 2] [3, 4] =
      [(5 + 2 * 2) / 256 % 256, (5 + 2 * 2) % 256, 255, 1, 0,
       (2 * 2 + 1) % 256, 2 * 2 % 256] ++ [1, 2] ++ [3, 4] ∧
    (ssl_write_server_hello_renego_ext 2 [1, 2] [3, 4]).length = 2 + (5 + 2 * 2) :=
  server_hello_renego_block 2 [1, 2] [3, 4] rfl rfl

/-- The signature-algorithm walk returns the hash of the first RSA pair, in
list order, whose hash byte is supported, and the prior `sig_alg` when no
pair qualifies. -/
theorem sslSigAlgWalk_eq (cfg : HashCfg) (a : Nat) (pairs : List (Nat × Nat)) :
    sslSigAlgWalk cfg a pairs = (firstRsaSupported cfg pairs).getD a := by
  induction pairs with
  | nil => rfl
  | cons p rest ih =>
    obtain ⟨h, s⟩ := p
    rcases cfg with ⟨s512, s256⟩
    by_cases hs : s = SSL_SIG_RSA
    · subst hs
      cases s512 <;> cases s256 <;>
        by_cases e6 : h = SSL_HASH_SHA512 <;> by_cases e5 : h = SSL_HASH_SHA384 <;>
        by_cases e4 : h = SSL_HASH_SHA256 <;> by_cases e3 : h = SSL_HASH_SHA224 <;>
        by_cases e2 : h = SSL_HASH_SHA1 <;> by_cases e1 : h = SSL_HASH_MD5 <;>
        simp_all [sslSigAlgWalk, firstRsaSupported, List.find?_cons,
          sigHashSupported, SSL_SIG_RSA, SSL_HASH_SHA512, SSL_HASH_SHA384,
          SSL_HASH_SHA256, SSL_HASH_SHA224, SSL_HASH_SHA1, SSL_HASH_MD5]
    · simp_all [sslSigAlgWalk, firstRsaSupported, List.find?_cons,
        sigHashSupported, SSL_SIG_RSA]

/-- C2, counterexample: the body `[0x00, 0x04, SHA1, RSA, SHA512, RSA]`
advertises RSA pairs with SHA1 first and SHA512 second; the claim's
preference-ordered rule picks SHA512, but the parser picks SHA1 (it takes
the first RSA pair in list order with any supported hash). -/
theorem sig_alg_preference_counterexample :
    ssl_parse_signature_algorithms_ext ⟨true, true⟩ 0 [0, 4, 2, 1, 6, 1] 6 =
      .ok SSL_HASH_SHA1 ∧
    claimSigAlg ⟨true, true⟩ 0 (sigPairs [2, 1, 6, 1]) = SSL_HASH_SHA512 ∧
    SSL_HASH_SHA1 ≠ SSL_HASH_SHA512 :=
  ⟨rfl, rfl, by decide⟩

/-- C2, amended: for every well-formed signature_algorithms body, the
parser sets `sig_alg` to the hash of the first pair in list order whose
signature byte is RSA and whose hash is among the compiled-in set
{SHA512, SHA384, SHA256, SHA224, SHA1, MD5}; if no RSA pair carries a
supported hash it is left at its prior value, and the parser returns
success either way. -/
theorem sig_alg_ext_first_rsa_pair (cfg : HashCfg) (a : Nat)
    (body : List Nat) (size : Nat)
    (hsz : body.getD 0 0 * 256 + body.getD 1 0 = size)
    (hlen : body.length = size + 2) (heven : size % 2 = 0) :
    ssl_parse_signature_algorithms_ext cfg a body (size + 2) =
      .ok ((firstRsaSupported cfg (sigPairs (body.drop 2))).getD a) := by
  simp only [ssl_parse_signature_algorithms_ext, hsz]
  rw [if_neg (by simp [heven])]
  have htake : (body.drop 2).take size = body.drop 2 :=
    List.take_of_length_le (by simp [hlen])
  rw [htake, sslSigAlgWalk_eq]

/-- Witness for C2 (amended) at the counterexample body. -/
theorem sig_alg_ext_first_rsa_pair_witness :
    ssl_parse_signature_algorithms_ext ⟨true, true⟩ 0 [0, 4, 2, 1, 6, 1] (4 + 2) =
      .ok ((firstRsaSupported ⟨true, true⟩
        (sigPairs ([0, 4, 2, 1, 6, 1].drop 2))).getD 0) :=
  sig_alg_ext_first_rsa_pair ⟨true, true⟩ 0 [0, 4, 2, 1, 6, 1] 4 rfl rfl rfl

/-- The inner client-list scan finds entry `id` exactly when its two bytes
appear in the client list and the version-range and EC checks pass. -/
theorem suiteInner_eq (db : Nat → Option SuiteInfo) (minor ec id : Nat)
    (info : SuiteInfo) (hdb : db id = some info) (client : List (Nat × Nat)) :
    suiteInner db minor ec id client =
      (if client.any (fun p => p.1 == id / 256 % 256 && p.2 == id % 256) then
        (if info.min_minor_ver ≤ minor ∧ minor ≤ info.max_minor_ver ∧
            ¬(info.flags_ec = true ∧ ec = 0) then SuiteScan.found
         else .noMatch)
      else .noMatch) := by
  induction client with
  | nil => rfl
  | cons p rest ih =>
    obtain ⟨b0, b1⟩ := p
    simp only [suiteInner, List.any_cons]
    by_cases hb : b0 = id / 256 % 256 ∧ b1 = id % 256
    · have hbeq : (b0 == id / 256 % 256 && b1 == id % 256) = true := by
        simp [hb.1, hb.2]
      rw [if_pos hb]
      simp only [hdb]
      simp only [hbeq, Bool.true_or]
      rw [if_pos trivial]
      by_cases hver : minor < info.min_minor_ver ∨ info.max_minor_ver < minor
      · have hchk : ¬(info.min_minor_ver ≤ minor ∧ minor ≤ info.max_minor_ver ∧
            ¬(info.flags_ec = true ∧ ec = 0)) := by
          rintro ⟨h1, h2, -⟩
          rcases hver with hv | hv <;> omega
        rw [if_pos hver, ih]
        simp only [if_neg hchk, ite_self]
      · rw [if_neg hver]
        by_cases hec : info.flags_ec = true ∧ ec = 0
        · have hchk : ¬(info.min_minor_ver ≤ minor ∧ minor ≤ info.max_minor_ver ∧
              ¬(info.flags_ec = true ∧ ec = 0)) := by
            rintro ⟨-, -, hne⟩; exact hne hec
          rw [if_pos hec, ih]
          simp only [if_neg hchk, ite_self]
        · have hchk : info.min_minor_ver ≤ minor ∧ minor ≤ info.max_minor_ver ∧
              ¬(info.flags_ec = true ∧ ec = 0) := by
            refine ⟨?_, ?_, hec⟩ <;> omega
          rw [if_neg hec, if_pos hchk]
    · have hbeq : (b0 == id / 256 % 256 && b1 == id % 256) = false := by
        simp only [Bool.and_eq_false_iff, beq_eq_false_iff_ne, ne_eq]
        exact not_and_or.mp hb
      rw [if_neg hb]
      simp only [hbeq, Bool.false_or]
      rw [ih]

/-- C7: the selected ciphersuite is the first entry of the server's ordered
preference list that appears in the client's advertised list, whose
minor-version range contains the negotiated version, and which is not
EC-based when no curve was selected; when no entry qualifies the server
sends a fatal handshake_failure alert and returns `NoCipherChosen`.
(The hypothesis says every configured suite id resolves in the suite
database, the invariant under which the `BadInputData` branch at line 898
is unreachable.) -/
theorem ciphersuite_selection (db : Nat → Option SuiteInfo) (minor ec : Nat)
    (client : List (Nat × Nat)) (server : List Nat)
    (hdb : ∀ id ∈ server, (db id).isSome) :
    suiteSelect db minor ec client server =
      (match server.find? (suiteAcceptable db minor ec client) with
       | some id => .ok id
       | none =>
         .error ⟨some SSL_ALERT_MSG_HANDSHAKE_FAILURE, .NoCipherChosen⟩) := by
  induction server with
  | nil => rfl
  | cons id rest ih =>
    obtain ⟨info, hinfo⟩ :=
      Option.isSome_iff_exists.mp (hdb id (List.mem_cons_self id rest))
    have hrest := ih fun i hi => hdb i (List.mem_cons_of_mem id hi)
    rw [List.find?_cons]
    simp only [suiteSelect]
    rw [suiteInner_eq db minor ec id info hinfo client]
    by_cases hany :
        client.any (fun p => p.1 == id / 256 % 256 && p.2 == id % 256) = true
    · by_cases hchk : info.min_minor_ver ≤ minor ∧ minor ≤ info.max_minor_ver ∧
          ¬(info.flags_ec = true ∧ ec = 0)
      · have hne : (info.flags_ec && (ec == 0)) = false := by
          by_cases hf : info.flags_ec = true
          · have h0 : ec ≠ 0 := fun h0 => hchk.2.2 ⟨hf, h0⟩
            simp [hf, h0]
          · simp [Bool.eq_false_iff.mpr hf]
        have hacc : suiteAcceptable db minor ec client id = true := by
          simp [suiteAcceptable, hinfo, hany, hchk.1, hchk.2.1, hne]
        rw [if_pos hany, if_pos hchk, hacc]
      · have hacc : suiteAcceptable db minor ec client id = false := by
          simp only [suiteAcceptable, hinfo, hany, Bool.true_and]
          by_cases h1 : info.min_minor_ver ≤ minor
          · by_cases h2 : minor ≤ info.max_minor_ver
            · have hfe : info.flags_ec = true ∧ ec = 0 := by
                by_contra hne
                exact hchk ⟨h1, h2, hne⟩
              simp [hfe.1, hfe.2]
            · simp [h2]
          · simp [h1]
        rw [if_pos hany, if_neg hchk, hacc, hrest]
    · have hany' :
          client.any (fun p => p.1 == id / 256 % 256 && p.2 == id % 256) = false :=
        Bool.eq_false_iff.mpr hany
      have hacc : suiteAcceptable db minor ec client id = false := by
        simp [suiteAcceptable, hany']
      rw [if_neg hany, hacc, hrest]

/-- Concrete one-suite database shared by the concrete-input theorems:
`ssl_ciphersuite_from_id` resolving id 47 (TLS_RSA_WITH_AES_128_CBC_SHA)
to a non-EC suite valid for all minor versions. -/
def demoDb : Nat → Option SuiteInfo :=
  fun id => if id = 47 then some ⟨0, 3, false⟩ else none

/-- Witness for C7: server preference `[47]`, client advertising `(0, 47)`,
negotiated minor 3, no curve selected. -/
theorem ciphersuite_selection_witness :
    suiteSelect demoDb 3 0 [(0, 47)] [47] =
      (match [47].find? (suiteAcceptable demoDb 3 0 [(0, 47)]) with
       | some id => .ok id
       | none =>
         .error ⟨some SSL_ALERT_MSG_HANDSHAKE_FAILURE, .NoCipherChosen⟩) :=
  ciphersuite_selection demoDb 3 0 [(0, 47)] [47]
    (by intro i hi; simp only [List.mem_singleton] at hi; subst hi; rfl)

/-- C9: a PSK ClientKeyExchange whose 16-bit-length-prefixed identity
matches the configured identity byte for byte yields the premaster
`(16-bit psk_len, psk_len zero bytes, 16-bit psk_len, psk)` with
`pmslen = 4 + 2 * psk_len` (the zero gap holding the zero-initialised prior
buffer contents the code skips over), and any well-formed identity of
different length or content is rejected with `BadClientKeyExchange`. -/
theorem psk_cke (psk psk_identity rest prev : List Nat)
    (hpsk : psk ≠ []) (hid : psk_identity ≠ [])
    (hidlen : psk_identity.length < 65536)
    (hzero : (prev.drop 2).take psk.length = List.replicate psk.length 0) :
    ssl_parse_client_key_exchange_psk psk psk_identity
        ([psk_identity.length / 256 % 256, psk_identity.length % 256] ++
          psk_identity ++ rest) prev =
      .ok ([psk.length / 256 % 256, psk.length % 256] ++
            List.replicate psk.length 0 ++
            [psk.length / 256 % 256, psk.length % 256] ++ psk,
           4 + 2 * psk.length) ∧
    (∀ body : List Nat,
      2 ≤ body.length →
      1 ≤ body.getD 0 0 * 256 + body.getD 1 0 →
      body.getD 0 0 * 256 + body.getD 1 0 ≤ 65535 →
      2 + (body.getD 0 0 * 256 + body.getD 1 0) ≤ body.length →
      ¬(body.getD 0 0 * 256 + body.getD 1 0 = psk_identity.length ∧
        (body.drop 2).take (body.getD 0 0 * 256 + body.getD 1 0) = psk_identity) →
      ssl_parse_client_key_exchange_psk psk psk_identity body prev =
        .error .BadClientKeyExchange) := by
  have hcfg : ¬(psk = [] ∨ psk_identity = []) := by
    push_neg; exact ⟨hpsk, hid⟩
  constructor
  · have hidpos : 1 ≤ psk_identity.length := List.length_pos.mpr hid
    have hn : psk_identity.length / 256 % 256 * 256 + psk_identity.length % 256 =
        psk_identity.length := by
      omega
    simp only [ssl_parse_client_key_exchange_psk, ssl_parse_client_psk_identity]
    rw [if_neg hcfg]
    have hbody : ([psk_identity.length / 256 % 256, psk_identity.length % 256] ++
        psk_identity ++ rest) =
        psk_identity.length / 256 % 256 :: psk_identity.length % 256 ::
          (psk_identity ++ rest) := by simp
    rw [hbody]
    simp only [List.getD_cons_zero, List.getD_cons_succ, List.length_cons,
      List.drop_succ_cons, List.drop_zero, hn]
    rw [if_neg (by omega)]
    rw [if_neg (by
      push_neg
      refine ⟨hidpos, by omega, ?_⟩
      simp only [List.length_append]
      omega)]
    rw [if_neg (by
      push_neg
      exact ⟨rfl, List.take_left' rfl⟩)]
    simp only [psk_premaster, hzero]
  · intro body h2 hn1 hn65 hnlen hne
    simp only [ssl_parse_client_key_exchange_psk, ssl_parse_client_psk_identity]
    rw [if_neg hcfg, if_neg (by omega),
      if_neg (by push_neg; exact ⟨hn1, hn65, hnlen⟩),
      if_pos (not_and_or.mp hne)]

/-- Witness for C9: configured PSK `[7]`, identity `[5]`; a matching
identity yields the premaster `[0, 1, 0, 0, 1, 7]` with `pmslen = 6`, and
the identity `[9]` (same length, different content) is rejected. -/
theorem psk_cke_witness :
    ssl_parse_client_key_exchange_psk [7] [5] ([0, 1] ++ [5] ++ [])
        (List.replicate 12 0) = .ok ([0, 1, 0, 0, 1, 7], 6) ∧
    ssl_parse_client_key_exchange_psk [7] [5] [0, 1, 9]
        (List.replicate 12 0) = .error .BadClientKeyExchange :=
  ⟨(psk_cke [7] [5] [] (List.replicate 12 0) (by decide) (by decide) (by decide)
      (by decide)).1,
   (psk_cke [7] [5] [] (List.replicate 12 0) (by decide) (by decide) (by decide)
      (by decide)).2 [0, 1, 9] (by decide) (by decide) (by decide) (by decide)
      (by decide)⟩

/-- Inversion of a successful field extraction: when the extension branch
was taken the record length equals `44 + sess_len + ciph_len + comp_len +
ext_len` exactly; otherwise the only length fact the code establishes is
`n ≤ 42 + sess_len + ciph_len + comp_len` (the branch condition), no sum
equality. -/
theorem chParseCore_ok (mem : Nat → Nat) (n maxm minm : Nat) (lens : CHLens)
    (acc : List Nat) (h : chParseCore mem n maxm minm = (.ok lens, acc)) :
    (lens.ext_present = true →
      n = 44 + lens.sess_len + lens.ciph_len + lens.comp_len + lens.ext_len) ∧
    (lens.ext_present = false →
      n ≤ 42 + lens.sess_len + lens.ciph_len + lens.comp_len) := by
  simp only [chParseCore] at h
  split at h
  · exact absurd h (by simp)
  split at h
  · exact absurd h (by simp)
  split at h
  · exact absurd h (by simp)
  split at h
  · exact absurd h (by simp)
  split at h
  · exact absurd h (by simp)
  split at h
  · exact absurd h (by simp)
  split at h
  · split at h
    · exact absurd h (by simp)
    · rw [Prod.mk.injEq] at h
      obtain ⟨hl, -⟩ := h
      obtain rfl := (Except.ok.injEq _ _).mp hl
      constructor
      all_goals intro hx
      all_goals simp at hx ⊢
      all_goals omega
  · rw [Prod.mk.injEq] at h
    obtain ⟨hl, -⟩ := h
    obtain rfl := (Except.ok.injEq _ _).mp hl
    constructor
    all_goals intro hx
    all_goals simp at hx ⊢
    all_goals omega

/-- Demo configuration for the concrete-input theorems: TLS minor versions
1..3 supported, server preference `[47]` for every minor version, suite
database `demoDb`, initial handshake with a legacy peer, ALLOW_LEGACY
policy, no SNI callback. -/
def demoCfg : SslCfg where
  max_minor_ver := 3
  min_minor_ver := 1
  ciphersuite_list := fun _ => [47]
  suite_db := demoDb
  hash_cfg := ⟨true, true⟩
  f_sni := none
  allow_legacy_renegotiation := .allowLegacy
  renegotiation := .initial
  secure_renegotiation := .legacy
  verify_data_len := 12
  peer_verify_data := []
  sig_alg := 0
  ec_curve := 0
  ec_point_format := 0

/-- The canonical well-formed 45-byte no-extension ClientHello record:
handshake type 1, 24-bit length 41, version (3, 3), zero random, empty
session id, ciphersuite list `(0x00, 0x2F)`, one compression byte 0. -/
def c4mem : Nat → Nat := fun i =>
  if i = 0 then 1 else if i = 3 then 41 else if i = 4 then 3
  else if i = 5 then 3 else if i = 40 then 2 else if i = 42 then 47
  else if i = 43 then 1 else 0

/-- C4, counterexample: the canonical well-formed 45-byte no-extension
ClientHello (sess_len 0, ciph_len 2, comp_len 1) is accepted with
ciphersuite 47, although the claim's sum `38 + 0 + 2 + 2 + 1 + 1 = 44`
differs from the record length 45 (the formula omits the 1-byte session-id
length field), so the claim would reject it. -/
theorem client_hello_sum_counterexample :
    ((ssl_parse_client_hello demoCfg [22, 3, 1, 0, 45] c4mem).1.map
        fun r => (r.ciphersuite, r.lens.sess_len, r.lens.ciph_len,
          r.lens.comp_len, r.lens.ext_present)) = .ok (47, 0, 2, 1, false) ∧
    45 ≠ 38 + 0 + 2 + 2 + 1 + 1 :=
  ⟨rfl, by decide⟩

/-- C4, amended: for every modern ClientHello the parser accepts, when the
record length exceeds `42 + sess_len + ciph_len + comp_len` an extensions
block is parsed and `N = 39 + sess_len + 2 + ciph_len + 1 + comp_len + 2 +
ext_len` exactly (any other sum is rejected with `BadClientHello`); when
`N ≤ 42 + sess_len + ciph_len + comp_len` no extensions are parsed and no
sum equality is enforced. -/
theorem client_hello_length_sum (cfg : SslCfg) (hdr : List Nat)
    (mem : Nat → Nat) (res : CHResult) (tr : List Nat)
    (h : ssl_parse_client_hello cfg hdr mem = (.ok res, tr)) :
    (res.lens.ext_present = true →
      hdr.getD 3 0 * 256 + hdr.getD 4 0 =
        44 + res.lens.sess_len + res.lens.ciph_len + res.lens.comp_len +
          res.lens.ext_len) ∧
    (res.lens.ext_present = false →
      hdr.getD 3 0 * 256 + hdr.getD 4 0 ≤
        42 + res.lens.sess_len + res.lens.ciph_len + res.lens.comp_len) := by
  simp only [ssl_parse_client_hello] at h
  split at h
  · exact absurd h (by simp)
  split at h
  · exact absurd h (by simp)
  split at h
  · exact absurd h (by simp)
  rename_i lens acc heq
  split at h
  · exact absurd h (by simp)
  split at h
  · exact absurd h (by simp)
  split at h
  · exact absurd h (by simp)
  split at h
  · exact absurd h (by simp)
  rw [Prod.mk.injEq] at h
  obtain ⟨hl, -⟩ := h
  obtain rfl := (Except.ok.injEq _ _).mp hl
  exact chParseCore_ok mem _ _ _ lens acc heq

/-- The parse result of the canonical 45-byte no-extension ClientHello. -/
def c4res : CHResult :=
  ⟨⟨3, 3, 3, List.replicate 32 0, 0, [], 2, 1, false, 0⟩,
   0, .legacy, false, 0, 0, 0, 47⟩

/-- The dereference trace of the canonical 45-byte no-extension ClientHello:
header fields, random, session-id length, ciphersuite-list length bytes and
the compression-list length byte at index 43. -/
def c4trace : List Nat :=
  [0, 4, 5] ++ (List.range 32).map (6 + ·) ++ [1, 2, 3, 38, 39, 40, 43]

/-- Witness for C4 (amended) at the canonical 45-byte no-extension record. -/
theorem client_hello_length_sum_witness :
    (c4res.lens.ext_present = true →
      45 = 44 + c4res.lens.sess_len + c4res.lens.ciph_len +
        c4res.lens.comp_len + c4res.lens.ext_len) ∧
    (c4res.lens.ext_present = false →
      45 ≤ 42 + c4res.lens.sess_len + c4res.lens.ciph_len +
        c4res.lens.comp_len) :=
  client_hello_length_sum demoCfg [22, 3, 1, 0, 45] c4mem c4res c4trace rfl

/-- A 45-byte record whose declared ciphersuite-list length is 256: the
handshake header, version and session fields are well-formed, the suite
bytes `(0x00, 0x2F)` sit at offsets 41..42, and index 297 — where the
parser reads the compression-list length from `buf[41 + sess_len +
ciph_len]` — is adjacent memory beyond the record, here holding 1. -/
def c10mem : Nat → Nat := fun i =>
  if i = 0 then 1 else if i = 3 then 41 else if i = 4 then 3
  else if i = 5 then 3 else if i = 39 then 1 else if i = 42 then 47
  else if i = 297 then 1 else 0

/-- C10: on the 45-byte record declaring `ciph_len = 256`, the parser
dereferences index `297 = 41 + 0 + 256` — far beyond the 45 bytes of the
fetched record — while extracting the compression-list length, and still
accepts the ClientHello (ciphersuite 47), so the claimed in-bounds property
fails. -/
theorem client_hello_oob_compression_read :
    297 ∈ (ssl_parse_client_hello demoCfg [22, 3, 1, 0, 45] c10mem).2 ∧
    ¬(297 < 45) ∧
    ((ssl_parse_client_hello demoCfg [22, 3, 1, 0, 45] c10mem).1.map
        fun r => (r.ciphersuite, r.lens.ciph_len)) = .ok (47, 256) :=
  ⟨by decide, by decide, rfl⟩

end SslSrv
